import Mathlib

/-!
Verification of the real-time voice pipeline of the coo-hyperliza agent.

The embedding translates, from the TypeScript source:
  * `VoiceManager` (speaker segmentation, silence-debounced transcription,
    reply dispatch, playback busy-flag) — `src/unnamed/part_000`;
  * `AgentLiveKit.publishAudioStream` / `convertToPcm` / `detectAudioFormat`
    — `src/plugin-hyperfy/utils.ts`;
  * the `agentActivityLock` primitive, whose defining module (`guards`) is
    only imported by the sources at hand; it is modelled from the spec.

Buffers are lists of bytes (`List Nat`, each conceptually < 256); PCM sample
vectors are lists of `Int`.  Effectful calls (speech-to-text, reply events,
track publication) are recorded in an explicit effect trace.
-/

/-- `Buffer.readInt16LE` at a byte pair: little-endian two's-complement. -/
def readInt16LE (lo hi : Nat) : Int :=
  let u := lo + 256 * hi
  if u < 32768 then (u : Int) else (u : Int) - 65536

/-- Sum of `Math.abs(sample)` over consecutive 16-bit LE samples of a byte
buffer, as in the loop of `isLoudEnough` (a trailing odd byte reads past the
buffer in Node and is a precondition violation; it is ignored here). -/
def absSampleSum : List Nat → Nat
  | lo :: hi :: rest => (readInt16LE lo hi).natAbs + absSampleSum rest
  | _ => 0

/-- `isLoudEnough(pcmBuffer, threshold = 1000)`: the average absolute sample
amplitude exceeds the threshold.  The source computes
`sum / sampleCount > threshold` in floating point; for a byte buffer this is
exactly `sum > threshold * sampleCount` when `sampleCount > 0`, and `false`
when `sampleCount = 0` (`0/0` is `NaN`, and `NaN > threshold` is false). -/
def isLoudEnough (pcmBuffer : List Nat) (threshold : Nat := 1000) : Bool :=
  let sampleCount := pcmBuffer.length / 2
  decide (threshold * sampleCount < absSampleSum pcmBuffer) && decide (0 < sampleCount)

/-- One per-speaker session of `VoiceManager.userStates`. -/
structure UserState where
  buffers : List (List Nat)
  totalLength : Nat
  lastActive : Nat
  transcriptionText : String
deriving Repr, DecidableEq

/-- The mutable state of a `VoiceManager` instance.  `speaking` mirrors the
player entity's speaking flag toggled by `player.setSpeaking`;
`transcriptionTimeout` holds the speaker id captured by the pending debounce
callback, `none` when no timer is pending. -/
structure VMState where
  userStates : List (String × UserState)
  processingVoice : Bool
  transcriptionTimeout : Option String
  speaking : Bool
deriving Repr, DecidableEq

/-- `userStates.get(k)` on the insertion-ordered map. -/
def getUser : List (String × UserState) → String → Option UserState
  | [], _ => none
  | p :: rest, k => if p.1 == k then some p.2 else getUser rest k

/-- `userStates.set(k, v)`: replace in place, append if absent. -/
def setUser : List (String × UserState) → String → UserState → List (String × UserState)
  | [], k, v => [(k, v)]
  | p :: rest, k, v => if p.1 == k then (k, v) :: rest else p :: setUser rest k v

/-- In-place mutation of the session object returned by `get` (a no-op when
the key is absent, where the source would throw on the missing object). -/
def updUser : List (String × UserState) → String → (UserState → UserState) → List (String × UserState)
  | [], _, _ => []
  | p :: rest, k, f => if p.1 == k then (p.1, f p.2) :: rest else p :: updUser rest k f

/-- Observable calls made by the voice pipeline. -/
inductive VMEffect where
  | transcribe (wav : List Nat)
  | ensureConnection (playerId : String)
  | emitVoiceEvent (text : String)
  | publishAudio
  | setSpeaking (b : Bool)
deriving Repr, DecidableEq

/-- Effects that constitute dispatching a reply for a finalized transcript
(`ensureConnection` and the `VOICE_MESSAGE_RECEIVED` event; memory creation
happens only downstream of the emitted event). -/
def isReplyDispatch : VMEffect → Bool
  | .ensureConnection _ => true
  | .emitVoiceEvent _ => true
  | _ => false

/-- `debouncedProcessTranscription(playerId)` up to its timer arming: when
`processingVoice` is set, the triggering speaker's buffers and byte count are
dropped and the function returns without touching the timer; otherwise the
pending timer is cancelled and re-armed for `playerId`. -/
def debouncedProcessTranscription (playerId : String) (st : VMState) : VMState :=
  if st.processingVoice then
    let dropBuffers := fun (s : UserState) => { s with buffers := ([] : List (List Nat)), totalLength := 0 }
    { st with userStates := updUser st.userStates playerId dropBuffers }
  else
    { st with transcriptionTimeout := some playerId }

/-- `handleUserBuffer(playerId, buffer)`: push the frame, update the byte
count and last-activity timestamp, then debounce.  When the session object is missing the
source throws on the non-null assertion and the `catch` leaves state
unchanged. -/
def handleUserBuffer (now : Nat) (playerId : String) (buffer : List Nat) (st : VMState) : VMState :=
  match getUser st.userStates playerId with
  | none => st
  | some s =>
    let s1 : UserState :=
      { s with buffers := s.buffers ++ [buffer]
             , totalLength := s.totalLength + buffer.length
             , lastActive := now }
    let st1 := { st with userStates := setUser st.userStates playerId s1 }
    debouncedProcessTranscription playerId st1

/-- The `'audio'` event handler installed by `VoiceManager.start`: create the
session lazily, then gate the frame on loudness. -/
def onAudio (now : Nat) (playerId : String) (frame : List Nat) (st : VMState) : VMState :=
  let fresh : UserState := { buffers := [], totalLength := 0, lastActive := now, transcriptionText := "" }
  let st0 := if (getUser st.userStates playerId).isSome then st
             else { st with userStates := setUser st.userStates playerId fresh }
  if isLoudEnough frame 1000 then handleUserBuffer now playerId frame st0 else st0

/-- Folding a sequence of inbound `(timestamp, speaker, frame)` events. -/
def runAudioSeq : List (Nat × String × List Nat) → VMState → VMState
  | [], st => st
  | e :: rest, st => runAudioSeq rest (onAudio e.1 e.2.1 e.2.2 st)

/-- `getWavHeader(audioLength, sampleRate, channelCount = 1, bitsPerSample = 16)`
from `utils.ts`: the 44-byte canonical RIFF/WAVE header. -/
def u16le (n : Nat) : List Nat := [n % 256, n / 256 % 256]

/-- Little-endian 32-bit write (`writeUInt32LE`). -/
def u32le (n : Nat) : List Nat := [n % 256, n / 256 % 256, n / 65536 % 256, n / 16777216 % 256]

/-- The 44-byte header written by `getWavHeader`; `'RIFF'`, `'WAVE'`, `'fmt '`
and `'data'` are spelled as their ASCII byte values. -/
def getWavHeader (audioLength sampleRate : Nat) (channelCount : Nat := 1) (bitsPerSample : Nat := 16) : List Nat :=
  [82, 73, 70, 70] ++ u32le (36 + audioLength) ++ [87, 65, 86, 69]
    ++ [102, 109, 116, 32] ++ u32le 16 ++ u16le 1 ++ u16le channelCount
    ++ u32le sampleRate ++ u32le (sampleRate * channelCount * (bitsPerSample / 8))
    ++ u16le (channelCount * (bitsPerSample / 8)) ++ u16le bitsPerSample
    ++ [100, 97, 116, 97] ++ u32le audioLength

/-- `Buffer.concat(list, totalLength)`: copies until `totalLength` bytes,
zero-filling if the chunks are shorter. -/
def bufferConcat (bufs : List (List Nat)) (totalLength : Nat) : List Nat :=
  (bufs.flatten ++ List.replicate totalLength 0).take totalLength

/-- Whether a list starts with a given pattern. -/
def startsWithL : List Char → List Char → Bool
  | _, [] => true
  | [], _ :: _ => false
  | a :: as, b :: bs => a == b && startsWithL as bs

/-- `String.prototype.includes` over the character lists. -/
def containsSub (pat : List Char) : List Char → Bool
  | [] => startsWithL [] pat
  | c :: cs => startsWithL (c :: cs) pat || containsSub pat cs

/-- `isValidTranscription(text)` from `processTranscription`: rejects empty
text and any text containing the `[BLANK_AUDIO]` sentinel. -/
def isValidTranscription (text : String) : Bool :=
  if text == "" || containsSub "[BLANK_AUDIO]".toList text.toList then false else true

/-- Whitespace-stripping over the character list (both ends). -/
def trimL (l : List Char) : List Char :=
  ((l.dropWhile Char.isWhitespace).reverse.dropWhile Char.isWhitespace).reverse

/-- `String.prototype.trim`, executable over the string's character data. -/
def jsTrim (s : String) : String := ⟨trimL s.data⟩

/-- `handleMessage(message, playerId)`: short messages (empty, whitespace-only
or fewer than 3 characters) return `{text:'', actions:['IGNORE']}` with no
side effect; otherwise the sender connection is ensured and the
`VOICE_MESSAGE_RECEIVED` event is emitted (which enters the activity lock
until its `onComplete` fires; memory creation happens in the event's
callback, downstream of the emitted event). -/
def handleMessage (message : String) (playerId : String) (st : VMState) : VMState × List VMEffect :=
  if message == "" || jsTrim message == "" || message.length < 3 then (st, [])
  else (st, [VMEffect.ensureConnection playerId, VMEffect.emitVoiceEvent message])

/-- `processTranscription(playerId)`.  The speech-to-text call is the
parameter `tr`: `.ok text` models `useModel(TRANSCRIPTION, wavBuffer)`
returning `text`, `.error e` models it throwing (caught and logged by the
surrounding `try`/`catch`).  Buffers are concatenated and cleared before the
call; the WAV header is prepended at 48 kHz mono 16-bit. -/
def processTranscription (tr : Except String String) (playerId : String) (st : VMState) : VMState × List VMEffect :=
  match getUser st.userStates playerId with
  | none => (st, [])
  | some s =>
    if s.buffers.isEmpty then (st, [])
    else
      let inputBuffer := bufferConcat s.buffers s.totalLength
      let s1 : UserState := { s with buffers := [], totalLength := 0 }
      let st1 := { st with userStates := setUser st.userStates playerId s1 }
      let wavBuffer := getWavHeader inputBuffer.length 48000 1 16 ++ inputBuffer
      match tr with
      | .error _ => (st1, [VMEffect.transcribe wavBuffer])
      | .ok text =>
        let s2 := if text != "" && isValidTranscription text
                  then { s1 with transcriptionText := s1.transcriptionText ++ text } else s1
        let st2 := { st1 with userStates := setUser st1.userStates playerId s2 }
        if s2.transcriptionText.length == 0 then (st2, [VMEffect.transcribe wavBuffer])
        else
          let finalText := s2.transcriptionText
          let s3 := { s2 with transcriptionText := "" }
          let st3 := { st2 with userStates := setUser st2.userStates playerId s3 }
          let r := handleMessage finalText playerId st3
          (r.1, VMEffect.transcribe wavBuffer :: r.2)

/-- The `forEach` cleanup at the end of the debounce callback: every
session's buffers, byte count and rolling transcript are reset. -/
def clearAllSessions (m : List (String × UserState)) : List (String × UserState) :=
  m.map (fun p => (p.1, { p.2 with buffers := ([] : List (List Nat)), totalLength := 0, transcriptionText := "" }))

/-- The body of the debounce timer callback, i.e. everything executed inside
`agentActivityLock.run`: set `processingVoice`, run `processTranscription`,
clear all sessions, and reset `processingVoice` in the `finally`.  The lock
itself is released only after this body has returned. -/
def debounceCycleBody (tr : Except String String) (playerId : String) (st : VMState) : VMState × List VMEffect :=
  let st0 := { st with processingVoice := true }
  let r := processTranscription tr playerId st0
  ({ r.1 with userStates := clearAllSessions r.1.userStates, processingVoice := false }, r.2)

/-- `playAudio(audioBuffer)`.  `envReady` models the service/world/livekit
availability checks, `playerPresent` whether the player entity exposes
`setSpeaking`, and `pub` the outcome of `publishAudioStream` (`.error`
modelling a throw, caught and logged).  When `processingVoice` is already
set the call returns at once, touching nothing. -/
def playAudio (envReady playerPresent : Bool) (_pub : Except String Unit) (st : VMState) : VMState × List VMEffect :=
  if st.processingVoice then (st, [])
  else if !envReady then (st, [])
  else
    let startEff := if playerPresent then [VMEffect.setSpeaking true] else []
    let endEff := if playerPresent then [VMEffect.setSpeaking false] else []
    let st1 := { st with processingVoice := false
                       , speaking := if playerPresent then false else st.speaking }
    (st1, startEff ++ [VMEffect.publishAudio] ++ endEff)

/-- Modelled from the spec: the `agentActivityLock` counter (`guards`, not
among the sources at hand) — `enter()` increments a counter. -/
def ActivityLock.enter (n : Nat) : Nat := n + 1

/-- Modelled from the spec: `exit()` decrements the counter, never below
zero. -/
def ActivityLock.exit (n : Nat) : Nat := n - 1

/-- Modelled from the spec: `isActive()` returns `counter > 0`. -/
def ActivityLock.isActive (n : Nat) : Bool := decide (0 < n)

/-- Modelled from the spec: `run(asyncFn)` — scoped acquisition: increment on
entry, run the body from the incremented counter, always decrement on exit
(the body's outcome — counter and thrown-or-not flag — is propagated after
the release). -/
def ActivityLock.run (n : Nat) (body : Nat → Nat × Bool) : Nat × Bool :=
  let r := body (ActivityLock.enter n)
  (ActivityLock.exit r.1, r.2)

/-- Nestings of lock usage: a non-throwing action, a throwing action,
sequencing (abandoned after a throw), and a `run`-scoped body. -/
inductive LockProg where
  | act : LockProg
  | raiseE : LockProg
  | seq : LockProg → LockProg → LockProg
  | locked : LockProg → LockProg

/-- Executing a nesting against a counter; the `Bool` is `true` when an
exception is propagating. -/
def execProg : LockProg → Nat → Nat × Bool
  | .act, n => (n, false)
  | .raiseE, n => (n, true)
  | .seq p q, n =>
    let r := execProg p n
    if r.2 then r else execProg q r.1
  | .locked p, n => ActivityLock.run n (execProg p)

/-- `samplesPerFrame = sampleRate * frameDurationMs / 1000 = 4800` in
`publishAudioStream` (48 kHz, 100 ms frames). -/
def samplesPerFrame : Nat := 4800

/-- `frameDurationMs = 100`. -/
def frameDurationMs : Nat := 100

/-- The successive `int16.slice(i, i + samplesPerFrame)` content frames of
the streaming loop of `publishAudioStream`; the fuel argument (instantiated
with the list length, an upper bound on the number of loop iterations since
every iteration consumes at least one sample) only makes the recursion
structural. -/
def chunkGo : Nat → List Int → List (List Int)
  | _, [] => []
  | 0, _ :: _ => []
  | fuel + 1, x :: xs => ((x :: xs).take samplesPerFrame) :: chunkGo fuel ((x :: xs).drop samplesPerFrame)

/-- The list of content frames sent by the loop of `publishAudioStream`. -/
def chunkFrames (l : List Int) : List (List Int) := chunkGo l.length l

/-- The pacing loop of `publishAudioStream`: at frame index `i` the deadline
is `start + i * frameDuration`; when ahead of schedule the loop awaits
`setTimeout` until the deadline (waking `slack ≥ 0` late), otherwise it sends
immediately; `cost` is the time taken by `captureFrame`.  The oracle list
supplies `(slack, cost)` pairs; the result is the list of dispatch
timestamps. -/
def paceLoop (start F : Nat) : Nat → Nat → Nat → List (Nat × Nat) → List Nat
  | 0, _, _, _ => []
  | fuel + 1, i, now, oracle =>
    let deadline := start + i * F
    let o := oracle.headD (0, 0)
    let sent := if now < deadline then deadline + o.1 else now
    sent :: paceLoop start F fuel (i + 1) (sent + o.2) oracle.tail

/-- The three classes recognized by `detectAudioFormat`. -/
inductive AudioFormat where
  | mp3 | wav | pcm
deriving Repr, DecidableEq

/-- `detectAudioFormat(buffer)`: `buffer.slice(0, 4).toString('ascii')`
decodes each byte with its high bit stripped (Node `'ascii'` decoding, i.e.
`byte % 128`); the result is compared with `'RIFF'` (bytes 82, 73, 70, 70).
Otherwise an MP3 frame sync is `buffer[0] === 0xff` with the top three bits
of `buffer[1]` set (a missing `buffer[1]` reads as 0).  Everything else is
raw PCM. -/
def detectAudioFormat (buffer : List Nat) : AudioFormat :=
  if (buffer.take 4).map (fun b => b % 128) = [82, 73, 70, 70] then AudioFormat.wav
  else if buffer.headD 0 = 255 ∧ (buffer.getD 1 0) % 256 / 32 % 8 = 7 then AudioFormat.mp3
  else AudioFormat.pcm

/-- `new Int16Array(buffer.buffer, byteOffset, buffer.length / 2)`: the bytes
reinterpreted as little-endian signed 16-bit samples (a trailing odd byte is
dropped by the `/ 2` truncation). -/
def bytesToInt16LE : List Nat → List Int
  | lo :: hi :: rest => readInt16LE lo hi :: bytesToInt16LE rest
  | _ => []

/-- Serializing 16-bit samples back to little-endian bytes (for the
byte-identity statement). -/
def int16ToBytesLE : List Int → List Nat
  | [] => []
  | s :: rest => ((s % 65536).toNat % 256) :: ((s % 65536).toNat / 256) :: int16ToBytesLE rest

/-- `convertToPcm(buffer, sampleRate)`: raw PCM is reinterpreted in place;
other formats are piped through the external `ffmpeg` transcoder, modelled by
the oracle `ff` (a rejected promise — spawn failure or non-zero exit — is the
`.error` case). -/
def convertToPcm (ff : AudioFormat → List Nat → Except String (List Int)) (buffer : List Nat) : Except String (List Int) :=
  match detectAudioFormat buffer with
  | AudioFormat.pcm => Except.ok (bytesToInt16LE buffer)
  | fmt => ff fmt buffer

/-- Decidable equality of transcoder results (used to evaluate concrete
transcoding outcomes). -/
instance : DecidableEq (Except String (List Int)) := fun a b =>
  match a, b with
  | Except.ok x, Except.ok y =>
    if h : x = y then Decidable.isTrue (by rw [h])
    else Decidable.isFalse (by simp [h])
  | Except.error x, Except.error y =>
    if h : x = y then Decidable.isTrue (by rw [h])
    else Decidable.isFalse (by simp [h])
  | Except.ok _, Except.error _ => Decidable.isFalse (by simp)
  | Except.error _, Except.ok _ => Decidable.isFalse (by simp)

/-- `Map.get` after `Map.set` at the same key. -/
theorem getUser_setUser_self (m : List (String × UserState)) (k : String) (v : UserState) :
    getUser (setUser m k v) k = some v := by
  induction m with
  | nil => simp [getUser, setUser]
  | cons p rest ih =>
    by_cases h : p.1 == k
    · simp [setUser, getUser, h]
    · simp [setUser, getUser, h, ih]

/-- In-place update at a key, observed at that key. -/
theorem getUser_updUser_self (m : List (String × UserState)) (k : String) (f : UserState → UserState) :
    getUser (updUser m k f) k = (getUser m k).map f := by
  induction m with
  | nil => simp [getUser, updUser]
  | cons p rest ih =>
    by_cases h : p.1 == k
    · simp [updUser, getUser, h]
    · simp [updUser, getUser, h, ih]

/-- In-place update at a key leaves other keys untouched. -/
theorem getUser_updUser_ne (m : List (String × UserState)) (k q : String) (f : UserState → UserState)
    (h : k ≠ q) : getUser (updUser m k f) q = getUser m q := by
  induction m with
  | nil => simp [getUser, updUser]
  | cons p rest ih =>
    by_cases hp : p.1 == k
    · have hp' : p.1 = k := by simpa using hp
      simp [updUser, getUser, hp, hp', h]
    · simp [updUser, getUser, hp, ih]

/-- Every entry after a `set` is an old entry or the new binding. -/
theorem mem_setUser (m : List (String × UserState)) (k : String) (v : UserState)
    (p : String × UserState) (h : p ∈ setUser m k v) : p ∈ m ∨ p = (k, v) := by
  induction m with
  | nil => simpa [setUser] using h
  | cons q rest ih =>
    by_cases hq : q.1 == k
    · simp only [setUser, hq, if_pos] at h
      rcases List.mem_cons.mp h with h | h
      · right; exact h
      · left; exact List.mem_cons_of_mem _ h
    · simp only [setUser, hq] at h
      rcases List.mem_cons.mp (by simpa using h) with h | h
      · left; simp [h]
      · rcases ih h with h' | h'
        · left; exact List.mem_cons_of_mem _ h'
        · right; exact h'

/-- After the `forEach` cleanup, every session is empty. -/
theorem mem_clearAllSessions (m : List (String × UserState)) (p : String × UserState)
    (h : p ∈ clearAllSessions m) :
    p.2.buffers = [] ∧ p.2.totalLength = 0 ∧ p.2.transcriptionText = "" := by
  simp only [clearAllSessions, List.mem_map] at h
  obtain ⟨x, _, rfl⟩ := h
  simp

/-- A sub-threshold frame leaves the state untouched apart from the lazy
creation of an empty session for a first-time speaker. -/
theorem onAudio_quiet (st : VMState) (now : Nat) (pid : String) (frame : List Nat)
    (hq : isLoudEnough frame 1000 = false) :
    onAudio now pid frame st =
      if (getUser st.userStates pid).isSome then st
      else { st with userStates := setUser st.userStates pid ⟨[], 0, now, ""⟩ } := by
  simp [onAudio, hq]

/-- Invariant of all-quiet frame sequences: buffers stay empty and no timer
is ever armed. -/
theorem runAudioSeq_quiet_inv (events : List (Nat × String × List Nat)) : ∀ (st : VMState),
    (∀ e ∈ events, isLoudEnough e.2.2 1000 = false) →
    (∀ p ∈ st.userStates, p.2.buffers = [] ∧ p.2.totalLength = 0) →
    st.transcriptionTimeout = none →
    (∀ p ∈ (runAudioSeq events st).userStates, p.2.buffers = [] ∧ p.2.totalLength = 0)
    ∧ (runAudioSeq events st).transcriptionTimeout = none := by
  induction events with
  | nil => intro st _ hbuf hto; exact ⟨hbuf, hto⟩
  | cons e rest ih =>
    intro st hquiet hbuf hto
    rw [runAudioSeq, onAudio_quiet _ _ _ _ (hquiet e (List.mem_cons_self _ _))]
    split
    · exact ih st (fun x hx => hquiet x (List.mem_cons_of_mem _ hx)) hbuf hto
    · refine ih _ (fun x hx => hquiet x (List.mem_cons_of_mem _ hx)) ?_ hto
      intro p hp
      rcases mem_setUser _ _ _ _ hp with h | h
      · exact hbuf p h
      · simp [h]

/-- The early return of `handleMessage` for empty, whitespace-only or
shorter-than-3 messages: no state change, no effect. -/
theorem handleMessage_short (msg pid : String) (st : VMState)
    (h : msg = "" ∨ jsTrim msg = "" ∨ msg.length < 3) :
    handleMessage msg pid st = (st, []) := by
  have hc : (msg == "" || jsTrim msg == "" || decide (msg.length < 3)) = true := by
    rcases h with h | h | h <;> simp [h]
  simp [handleMessage, hc]

/-- Claim C1, as stated, is false on the code: with the processing flag set
(the mid-turn marker of a concurrent voice turn), a debounce cycle for
speaker `A` leaves speaker `B`'s buffered audio untouched and keeps `A`'s
accumulated transcript, so not all speaker sessions are cleared. -/
theorem C1_counterexample :
    let st : VMState :=
      { userStates :=
          [("A", { buffers := [], totalLength := 0, lastActive := 0, transcriptionText := "hello" }),
           ("B", { buffers := [[1, 2]], totalLength := 2, lastActive := 0, transcriptionText := "" })]
        , processingVoice := true, transcriptionTimeout := none, speaking := false }
    st.processingVoice = true
    ∧ getUser (debouncedProcessTranscription "A" st).userStates "B"
        = some { buffers := [[1, 2]], totalLength := 2, lastActive := 0, transcriptionText := "" }
    ∧ ¬ (∀ p ∈ (debouncedProcessTranscription "A" st).userStates,
          p.2.buffers = [] ∧ p.2.totalLength = 0 ∧ p.2.transcriptionText = "") := by
  decide

/-- Claim C1 (amended): for a debounce cycle triggered while the
voice-processing flag of a concurrent turn is set, only the triggering
speaker's buffer list and cumulative byte length are cleared (its
accumulated transcript and every other speaker's session are untouched), and
no transcription is initiated for that cycle: the function returns without
arming the debounce timer, so no timer callback — the only site that calls
the transcription model — arises from it. -/
theorem C1_busy_clears_only_trigger (playerId : String) (st : VMState) (s : UserState)
    (hbusy : st.processingVoice = true)
    (hs : getUser st.userStates playerId = some s) :
    getUser (debouncedProcessTranscription playerId st).userStates playerId
        = some { s with buffers := [], totalLength := 0 }
    ∧ (∀ q, q ≠ playerId →
        getUser (debouncedProcessTranscription playerId st).userStates q = getUser st.userStates q)
    ∧ (debouncedProcessTranscription playerId st).transcriptionTimeout = st.transcriptionTimeout
    ∧ (debouncedProcessTranscription playerId st).processingVoice = true := by
  refine ⟨?_, ?_, ?_, ?_⟩
  · simp [debouncedProcessTranscription, hbusy, getUser_updUser_self, hs]
  · intro q hq
    simp [debouncedProcessTranscription, hbusy, getUser_updUser_ne _ _ _ _ (fun h => hq h.symm)]
  · simp [debouncedProcessTranscription, hbusy]
  · simp [debouncedProcessTranscription, hbusy]

/-- Witness for C1 (amended) at a concrete busy state. -/
theorem C1_busy_clears_only_trigger_w :
    getUser (debouncedProcessTranscription "A"
        ⟨[("A", ⟨[[7]], 1, 5, "t"⟩)], true, some "A", false⟩).userStates "A"
      = some ⟨[], 0, 5, "t"⟩ := by
  have h := C1_busy_clears_only_trigger "A" ⟨[("A", ⟨[[7]], 1, 5, "t"⟩)], true, some "A", false⟩
    ⟨[[7]], 1, 5, "t"⟩ rfl (by decide)
  exact h.1

/-- Claim C2: whatever the speech-to-text call did (`tr` ranges over
successful, empty, sentinel and thrown outcomes), the state produced by the
debounce-callback body — the state in hand when `agentActivityLock.run`
performs its release — has every session's buffer list, byte count and
rolling transcript cleared, and the processing flag reset by the `finally`. -/
theorem C2_sessions_cleared_before_release (tr : Except String String) (playerId : String) (st : VMState) :
    (∀ p ∈ (debounceCycleBody tr playerId st).1.userStates,
        p.2.buffers = [] ∧ p.2.totalLength = 0 ∧ p.2.transcriptionText = "")
    ∧ (debounceCycleBody tr playerId st).1.processingVoice = false := by
  constructor
  · intro p hp
    exact mem_clearAllSessions _ p (by simpa [debounceCycleBody] using hp)
  · simp [debounceCycleBody]

/-- Witness for C2 at a concrete state and successful transcription. -/
theorem C2_sessions_cleared_before_release_w :
    ("A", ({ buffers := [], totalLength := 0, lastActive := 0, transcriptionText := "" } : UserState))
        ∈ (debounceCycleBody (Except.ok "hello there") "A"
            ⟨[("A", ⟨[[0, 40]], 2, 0, ""⟩)], false, some "A", false⟩).1.userStates
    ∧ (([] : List (List Nat)) = [] ∧ (0 : Nat) = 0 ∧ ("" : String) = "") := by
  refine ⟨by decide, ?_⟩
  exact (C2_sessions_cleared_before_release (Except.ok "hello there") "A"
      ⟨[("A", ⟨[[0, 40]], 2, 0, ""⟩)], false, some "A", false⟩).1
      ("A", ⟨[], 0, 0, ""⟩) (by decide)

/-- Claim C3 (lock modelled from the spec, its module not being among the
sources): for every nesting of scoped `enter`/`exit` uses — including bodies
that throw — the counter after unwinding equals the counter before; fully
unwinding from a free lock leaves `isActive()` false; and `run`'s outcome is
exactly its body's outcome evaluated from the incremented counter, delivered
after the decrement (result propagated, release guaranteed). -/
theorem C3_lock_reentrant (p : LockProg) (n : Nat) :
    (execProg p n).1 = n
    ∧ ActivityLock.isActive (execProg p 0).1 = false
    ∧ (execProg (LockProg.locked p) n).2 = (execProg p (ActivityLock.enter n)).2 := by
  have main : ∀ (q : LockProg) (m : Nat), (execProg q m).1 = m := by
    intro q
    induction q with
    | act => intro m; rfl
    | raiseE => intro m; rfl
    | seq a b iha ihb =>
      intro m
      simp only [execProg]
      split
      · exact iha m
      · rw [ihb, iha]
    | locked a ih =>
      intro m
      simp [execProg, ActivityLock.run, ActivityLock.enter, ActivityLock.exit, ih]
  refine ⟨main p n, ?_, rfl⟩
  rw [main p 0]; rfl

/-- Claim C4: frames whose average absolute amplitude never exceeds the
threshold build up no buffered content and never arm the debounce timer (so
no transcription is ever triggered), and an individual quiet frame is
dropped without resetting anything — at most a fresh empty session is
created for a first-time speaker. -/
theorem C4_subthreshold (events : List (Nat × String × List Nat)) (st : VMState)
    (hquiet : ∀ e ∈ events, isLoudEnough e.2.2 1000 = false)
    (hbuf : ∀ p ∈ st.userStates, p.2.buffers = [] ∧ p.2.totalLength = 0)
    (hto : st.transcriptionTimeout = none) :
    (∀ p ∈ (runAudioSeq events st).userStates, p.2.buffers = [] ∧ p.2.totalLength = 0)
    ∧ (runAudioSeq events st).transcriptionTimeout = none
    ∧ ∀ (st2 : VMState) (now : Nat) (pid : String) (frame : List Nat),
        isLoudEnough frame 1000 = false →
        onAudio now pid frame st2 =
          if (getUser st2.userStates pid).isSome then st2
          else { st2 with userStates := setUser st2.userStates pid ⟨[], 0, now, ""⟩ } := by
  obtain ⟨h1, h2⟩ := runAudioSeq_quiet_inv events st hquiet hbuf hto
  exact ⟨h1, h2, fun st2 now pid frame hq => onAudio_quiet st2 now pid frame hq⟩

/-- Witness for C4 on a two-speaker all-quiet sequence. -/
theorem C4_subthreshold_w :
    (∀ p ∈ (runAudioSeq [(0, "A", [1, 0]), (5, "B", [2, 0])]
        ⟨[], false, none, false⟩).userStates, p.2.buffers = [] ∧ p.2.totalLength = 0)
    ∧ (runAudioSeq [(0, "A", [1, 0]), (5, "B", [2, 0])]
        ⟨[], false, none, false⟩).transcriptionTimeout = none := by
  have h := C4_subthreshold [(0, "A", [1, 0]), (5, "B", [2, 0])] ⟨[], false, none, false⟩
    (by decide) (by decide) rfl
  exact ⟨h.1, h.2.1⟩

/-- Content frames flattened back together give the original samples: the
loop never drops a frame. -/
theorem chunkGo_flatten : ∀ (fuel : Nat) (l : List Int), l.length ≤ fuel →
    (chunkGo fuel l).flatten = l
  | fuel, [], _ => by cases fuel <;> simp [chunkGo]
  | 0, x :: xs, h => by simp at h
  | fuel + 1, x :: xs, h => by
    rw [chunkGo]
    simp only [List.flatten_cons]
    rw [chunkGo_flatten fuel _ (by simp only [List.length_drop, List.length_cons, samplesPerFrame] at h ⊢; omega)]
    exact List.take_append_drop _ _

/-- The loop emits exactly the ceiling of the sample count divided by the
frame size. -/
theorem chunkGo_length : ∀ (fuel : Nat) (l : List Int), l.length ≤ fuel →
    (chunkGo fuel l).length = (l.length + samplesPerFrame - 1) / samplesPerFrame
  | fuel, [], _ => by cases fuel <;> simp [chunkGo, samplesPerFrame]
  | 0, x :: xs, h => by simp at h
  | fuel + 1, x :: xs, h => by
    rw [chunkGo]
    simp only [List.length_cons] at h ⊢
    rw [chunkGo_length fuel _ (by simp only [List.length_drop, List.length_cons, samplesPerFrame] at h ⊢; omega)]
    simp only [List.length_drop, List.length_cons, samplesPerFrame]
    omega

/-- The pacing loop dispatches once per frame. -/
theorem paceLoop_length (start F : Nat) : ∀ (fuel i now : Nat) (oracle : List (Nat × Nat)),
    (paceLoop start F fuel i now oracle).length = fuel
  | 0, _, _, _ => rfl
  | fuel + 1, i, now, oracle => by
    simp [paceLoop, paceLoop_length start F fuel]

/-- No dispatch happens before its absolute deadline `start + index * F`,
whatever the waking slack and per-frame costs. -/
theorem paceLoop_deadline (start F : Nat) : ∀ (fuel i now : Nat) (oracle : List (Nat × Nat)) (k : Nat),
    k < fuel → start + (i + k) * F ≤ (paceLoop start F fuel i now oracle).getD k 0
  | 0, _, _, _, _, hk => absurd hk (by omega)
  | fuel + 1, i, now, oracle, 0, _ => by
    simp only [paceLoop, List.getD_cons_zero, Nat.add_zero]
    split
    · exact Nat.le_add_right _ _
    · next hlt => exact Nat.le_of_not_lt hlt
  | fuel + 1, i, now, oracle, k + 1, hk => by
    simp only [paceLoop, List.getD_cons_succ]
    have he : i + (k + 1) = (i + 1) + k := by omega
    rw [he]
    exact paceLoop_deadline start F fuel (i + 1) _ oracle.tail k (by omega)

/-- Claim C5: the streaming loop of `publishAudioStream` emits exactly
`⌈samples / samplesPerFrame⌉` content frames (the sample count of a buffer
of duration `D` ms at the fixed rate, so `⌈D / F⌉` frames), losing no sample
(catching up never drops a frame), and the `k`-th dispatch timestamp is
never earlier than `start + k * frameDurationMs`, for every schedule of
timer slacks and frame-capture costs. -/
theorem C5_playback_pacing (samples : List Int) (start : Nat) (oracle : List (Nat × Nat)) (k : Nat)
    (hk : k < (chunkFrames samples).length) :
    (chunkFrames samples).length = (samples.length + samplesPerFrame - 1) / samplesPerFrame
    ∧ (chunkFrames samples).flatten = samples
    ∧ (paceLoop start frameDurationMs ((chunkFrames samples).length) 0 start oracle).length
        = (chunkFrames samples).length
    ∧ start + k * frameDurationMs
        ≤ (paceLoop start frameDurationMs ((chunkFrames samples).length) 0 start oracle).getD k 0 := by
  refine ⟨chunkGo_length samples.length samples le_rfl, chunkGo_flatten samples.length samples le_rfl,
    paceLoop_length start frameDurationMs _ 0 start oracle, ?_⟩
  have h := paceLoop_deadline start frameDurationMs _ 0 start oracle k hk
  simpa using h

/-- Witness for C5 on a short concrete buffer. -/
theorem C5_playback_pacing_w :
    (chunkFrames [1, 2, 3]).length = 1
    ∧ (chunkFrames [1, 2, 3]).flatten = [1, 2, 3]
    ∧ (paceLoop 5 frameDurationMs 1 0 5 [(0, 7)]).getD 0 0 ≥ 5 := by
  have h := C5_playback_pacing [1, 2, 3] 5 [(0, 7)] 0 (by decide)
  refine ⟨by decide, h.2.1, ?_⟩
  have h4 := h.2.2.2
  simpa using h4

/-- A 16-bit LE sample decoded from two bytes re-encodes to the same two
bytes. -/
theorem readInt16LE_bytes (lo hi : Nat) (hlo : lo < 256) (hhi : hi < 256) :
    (readInt16LE lo hi % 65536).toNat % 256 = lo ∧ (readInt16LE lo hi % 65536).toNat / 256 = hi := by
  simp only [readInt16LE]
  split <;> constructor <;> omega

/-- Reinterpreting an even-length byte buffer as 16-bit samples is
byte-lossless. -/
theorem bytes_roundtrip : ∀ (l : List Nat), (∀ b ∈ l, b < 256) → l.length % 2 = 0 →
    int16ToBytesLE (bytesToInt16LE l) = l
  | [], _, _ => rfl
  | [x], _, hlen => by simp at hlen
  | lo :: hi :: rest, hb, hlen => by
    have hlo : lo < 256 := hb lo (by simp)
    have hhi : hi < 256 := hb hi (by simp)
    have ih := bytes_roundtrip rest (fun b hbm => hb b (by simp [hbm]))
      (by simp only [List.length_cons] at hlen ⊢; omega)
    have hpair := readInt16LE_bytes lo hi hlo hhi
    simp only [bytesToInt16LE, int16ToBytesLE, ih, hpair.1, hpair.2]

/-- Claim C6, as stated, is false on the code: the byte buffer
`D2 C9 C6 C6 00 00` does not begin with the ASCII bytes of `"RIFF"` and is
not an MP3 frame sync, yet Node's `'ascii'` decoding strips the high bit of
each byte, so `detectAudioFormat` reads `"RIFF"` and classifies it as a wave
container — `toPcm` hands it to the external transcoder instead of passing
it through. -/
theorem C6_counterexample :
    let b : List Nat := [210, 201, 198, 198, 0, 0]
    b.take 4 ≠ [82, 73, 70, 70]
    ∧ ¬ (b.headD 0 = 255 ∧ (b.getD 1 0) % 256 / 32 % 8 = 7)
    ∧ detectAudioFormat b = AudioFormat.wav
    ∧ convertToPcm (fun _ _ => Except.ok []) b ≠ Except.ok (bytesToInt16LE b) := by
  decide

/-- Claim C6 (amended): for every buffer that `detectAudioFormat` classifies
as raw PCM — its first four bytes, after the high-bit stripping of Node's
`'ascii'` decoding, do not spell `"RIFF"`, and its first two bytes are not
an MP3 frame sync — `toPcm` returns the input unchanged: the result is
exactly the input bytes reinterpreted as 16-bit LE signed samples, and (for
an even-length byte buffer) serializing those samples reproduces the input
byte for byte. -/
theorem C6_raw_passthrough (buffer : List Nat)
    (ff : AudioFormat → List Nat → Except String (List Int))
    (hfmt : detectAudioFormat buffer = AudioFormat.pcm)
    (hbytes : ∀ b ∈ buffer, b < 256)
    (heven : buffer.length % 2 = 0) :
    convertToPcm ff buffer = Except.ok (bytesToInt16LE buffer)
    ∧ int16ToBytesLE (bytesToInt16LE buffer) = buffer := by
  constructor
  · simp [convertToPcm, hfmt]
  · exact bytes_roundtrip buffer hbytes heven

/-- Witness for C6 (amended) on a concrete raw buffer. -/
theorem C6_raw_passthrough_w :
    convertToPcm (fun _ _ => Except.error "unused") [1, 2, 3, 4]
      = Except.ok (bytesToInt16LE [1, 2, 3, 4])
    ∧ int16ToBytesLE (bytesToInt16LE [1, 2, 3, 4]) = [1, 2, 3, 4] := by
  exact C6_raw_passthrough [1, 2, 3, 4] (fun _ _ => Except.error "unused")
    (by decide) (by decide) (by decide)

/-- Claim C7: an empty or sentinel-bearing transcription result is a no-op —
the trace of the cycle holds no reply-dispatch effect, the session's rolling
transcript is unchanged (still empty), and the end-of-cycle cleanup still
clears every session.  The hypothesis that the transcript starts empty is
the invariant that the previous cycle's cleanup establishes. -/
theorem C7_sentinel_noop (t playerId : String) (st : VMState) (s : UserState)
    (hs : getUser st.userStates playerId = some s)
    (h0 : s.transcriptionText = "")
    (hsent : t = "" ∨ containsSub "[BLANK_AUDIO]".toList t.toList = true) :
    (processTranscription (Except.ok t) playerId st).2.all (fun e => !isReplyDispatch e) = true
    ∧ (getUser (processTranscription (Except.ok t) playerId st).1.userStates playerId).map
        UserState.transcriptionText = some ""
    ∧ ∀ p ∈ (debounceCycleBody (Except.ok t) playerId st).1.userStates,
        p.2.buffers = [] ∧ p.2.totalLength = 0 ∧ p.2.transcriptionText = "" := by
  have hval : isValidTranscription t = false := by
    rcases hsent with h | h
    · simp [isValidTranscription, h]
    · have h' : containsSub "[BLANK_AUDIO]".toList t.data = true := h
      simp only [isValidTranscription]
      simp
      intro _
      simpa using h'
  refine ⟨?_, ?_, fun p hp => mem_clearAllSessions _ p (by simpa [debounceCycleBody] using hp)⟩
  all_goals
    simp only [processTranscription, hs]
    by_cases hb : s.buffers.isEmpty
  · simp [hb, isReplyDispatch]
  · simp [hb, hval, h0, getUser_setUser_self, isReplyDispatch]
  · simp [hb, hs, h0]
  · simp [hb, hval, h0, getUser_setUser_self]

/-- Witness for C7 with the sentinel result on a buffered session. -/
theorem C7_sentinel_noop_w :
    ((processTranscription (Except.ok "[BLANK_AUDIO]") "A"
        ⟨[("A", ⟨[[0, 40]], 2, 3, ""⟩)], true, some "A", false⟩).2.all
          (fun e => !isReplyDispatch e) = true)
    ∧ ((getUser (processTranscription (Except.ok "[BLANK_AUDIO]") "A"
        ⟨[("A", ⟨[[0, 40]], 2, 3, ""⟩)], true, some "A", false⟩).1.userStates "A").map
          UserState.transcriptionText = some "") := by
  have h := C7_sentinel_noop "[BLANK_AUDIO]" "A"
    ⟨[("A", ⟨[[0, 40]], 2, 3, ""⟩)], true, some "A", false⟩ ⟨[[0, 40]], 2, 3, ""⟩
    rfl rfl (Or.inr (by decide))
  exact ⟨h.1, h.2.1⟩

/-- Claim C8: a `playAudio` call while a session is busy is a no-op that
changes nothing — in particular the in-flight speaking flag; otherwise (with
the transport available and the player handle present) the speaking flag is
raised before the publish and lowered after it, with the lowering and the
busy-flag reset happening in the `finally`, for a successful and for a
throwing publish alike. -/
theorem C8_busy_noop_and_guaranteed_reset (st : VMState) (pub : Except String Unit) :
    (st.processingVoice = true → playAudio true true pub st = (st, []))
    ∧ (st.processingVoice = false →
        playAudio true true pub st
          = ({ st with processingVoice := false, speaking := false },
             [VMEffect.setSpeaking true, VMEffect.publishAudio, VMEffect.setSpeaking false])) := by
  constructor <;> intro h <;> simp [playAudio, h]

/-- Witness for C8: a busy no-op, and a guaranteed reset on a failing
publish. -/
theorem C8_busy_noop_and_guaranteed_reset_w :
    playAudio true true (Except.ok ()) ⟨[], true, none, true⟩ = (⟨[], true, none, true⟩, [])
    ∧ playAudio true true (Except.error "publish failed") ⟨[], false, none, true⟩
      = (⟨[], false, none, false⟩,
         [VMEffect.setSpeaking true, VMEffect.publishAudio, VMEffect.setSpeaking false]) := by
  refine ⟨(C8_busy_noop_and_guaranteed_reset _ _).1 rfl, ?_⟩
  have h := (C8_busy_noop_and_guaranteed_reset ⟨[], false, none, true⟩ (Except.error "publish failed")).2 rfl
  simpa using h

/-- Claim C9: `processingVoice` is one shared flag — while it is set (by a
transcription turn or a playback), `playAudio` returns without publishing
anything, and an accepted loud frame ends with the triggering speaker's
buffer list and byte count cleared and the debounce timer not armed (the
pending-timer slot is exactly as before). -/
theorem C9_shared_flag (st : VMState) (pub : Except String Unit)
    (now : Nat) (pid : String) (frame : List Nat) (s : UserState)
    (hbusy : st.processingVoice = true)
    (hloud : isLoudEnough frame 1000 = true)
    (hs : getUser st.userStates pid = some s) :
    playAudio true true pub st = (st, [])
    ∧ getUser (onAudio now pid frame st).userStates pid
        = some { s with buffers := [], totalLength := 0, lastActive := now }
    ∧ (onAudio now pid frame st).transcriptionTimeout = st.transcriptionTimeout := by
  refine ⟨by simp [playAudio, hbusy], ?_, ?_⟩
  · simp [onAudio, hs, hloud, handleUserBuffer, debouncedProcessTranscription, hbusy,
      getUser_updUser_self, getUser_setUser_self]
  · simp [onAudio, hs, hloud, handleUserBuffer, debouncedProcessTranscription, hbusy]

/-- Witness for C9 at a concrete busy state and loud frame. -/
theorem C9_shared_flag_w :
    playAudio true true (Except.ok ()) ⟨[("A", ⟨[[9, 9]], 2, 1, "x"⟩)], true, some "A", false⟩
      = (⟨[("A", ⟨[[9, 9]], 2, 1, "x"⟩)], true, some "A", false⟩, [])
    ∧ getUser (onAudio 7 "A" [0, 40] ⟨[("A", ⟨[[9, 9]], 2, 1, "x"⟩)], true, some "A", false⟩).userStates "A"
      = some ⟨[], 0, 7, "x"⟩
    ∧ (onAudio 7 "A" [0, 40] ⟨[("A", ⟨[[9, 9]], 2, 1, "x"⟩)], true, some "A", false⟩).transcriptionTimeout
      = some "A" := by
  have h := C9_shared_flag ⟨[("A", ⟨[[9, 9]], 2, 1, "x"⟩)], true, some "A", false⟩ (Except.ok ())
    7 "A" [0, 40] ⟨[[9, 9]], 2, 1, "x"⟩ rfl (by decide) (by decide)
  exact ⟨h.1, h.2.1, h.2.2⟩

/-- Claim C10: a finalized transcript that is empty after trimming or
shorter than 3 characters produces no reply dispatch: the cycle's only
effect is the transcription call itself, `handleMessage` on that very text
returns the state unchanged with no effect (no connection ensured, no event
emitted, hence no memory created), and the session's rolling transcript has
already been cleared by the time `handleMessage` decides. -/
theorem C10_short_transcript_ignored (t pid : String) (st : VMState) (s : UserState)
    (hs : getUser st.userStates pid = some s)
    (hb : s.buffers.isEmpty = false)
    (h0 : s.transcriptionText = "")
    (hv : isValidTranscription t = true)
    (ht : jsTrim t = "" ∨ t.length < 3) :
    (processTranscription (Except.ok t) pid st).2
        = [VMEffect.transcribe (getWavHeader (bufferConcat s.buffers s.totalLength).length 48000 1 16
            ++ bufferConcat s.buffers s.totalLength)]
    ∧ (getUser (processTranscription (Except.ok t) pid st).1.userStates pid).map
        UserState.transcriptionText = some ""
    ∧ handleMessage t pid (processTranscription (Except.ok t) pid st).1
        = ((processTranscription (Except.ok t) pid st).1, []) := by
  have ht' : t = "" ∨ jsTrim t = "" ∨ t.length < 3 := Or.inr ht
  have htn : ¬(t = "") := by
    intro h
    rw [h] at hv
    simp [isValidTranscription] at hv
  have hlen : (t.length == 0) = false := by
    cases t with
    | mk d =>
      cases d with
      | nil => exact absurd rfl htn
      | cons c cs => simp [String.length]
  refine ⟨?_, ?_, handleMessage_short t pid _ ht'⟩
  · simp [processTranscription, hs, hb, hv, htn, hlen, h0]
    rw [handleMessage_short t pid _ ht']
  · simp [processTranscription, hs, hb, hv, htn, hlen, h0]
    rw [handleMessage_short t pid _ ht']
    exact ⟨_, getUser_setUser_self _ _ _, rfl⟩

/-- Witness for C10 with the two-character transcript `"hi"`. -/
theorem C10_short_transcript_ignored_w :
    ((getUser (processTranscription (Except.ok "hi") "A"
        ⟨[("A", ⟨[[0, 40]], 2, 0, ""⟩)], true, none, false⟩).1.userStates "A").map
          UserState.transcriptionText = some "")
    ∧ handleMessage "hi" "A" (processTranscription (Except.ok "hi") "A"
        ⟨[("A", ⟨[[0, 40]], 2, 0, ""⟩)], true, none, false⟩).1
      = ((processTranscription (Except.ok "hi") "A"
        ⟨[("A", ⟨[[0, 40]], 2, 0, ""⟩)], true, none, false⟩).1, []) := by
  have h := C10_short_transcript_ignored "hi" "A"
    ⟨[("A", ⟨[[0, 40]], 2, 0, ""⟩)], true, none, false⟩ ⟨[[0, 40]], 2, 0, ""⟩
    rfl rfl rfl (by decide) (Or.inr (by decide))
  exact ⟨h.2.1, h.2.2⟩
